import Mathlib

/-!
Verification of the user CRUD / bot-orchestration server
(`user_crud_server.py`).

The development shallowly embeds the Python source:

* Python dicts become association lists `List (String × α)` with
  the semantics of Python (lookup finds the entry, update replaces the value
  in place, a fresh key is appended at the end, delete removes the
  entry).
* Network calls are replaced by oracles: a launch response, a status
  fetch indexed by the attempt number, and a per-node result fetch.
* The truthiness test of Python in `a or b` on optional strings is modelled
  by `pyOrOpt` / `pyOrStr` (`None` and `""` are falsy).
* The poller `wait_for_bot_completion` is embedded as `pollGo`, which
  additionally records how many status fetches and how many
  inter-attempt sleeps the loop performed, so that temporal claims
  ("exactly N attempts", "one interval wait") are statable.
-/

namespace UserCrud

/-- Python dict lookup `d.get(k)`: the value stored under `k`, if any. -/
def dictGet {α : Type} : List (String × α) → String → Option α
  | [], _ => none
  | p :: ps, k => if p.1 = k then some p.2 else dictGet ps k

/-- Python `k in d`. -/
def hasKey {α : Type} : List (String × α) → String → Bool
  | [], _ => false
  | p :: ps, k => p.1 = k || hasKey ps k

/-- Python dict assignment `d[k] = v`: replaces the value in place when
the key is present, appends a fresh entry otherwise. -/
def dictInsert {α : Type} : List (String × α) → String → α → List (String × α)
  | [], k, v => [(k, v)]
  | p :: ps, k, v => if p.1 = k then (k, v) :: ps else p :: dictInsert ps k v

/-- Python `del d[k]`: removes the entry stored under `k`. -/
def dictDelete {α : Type} : List (String × α) → String → List (String × α)
  | [], _ => []
  | p :: ps, k => if p.1 = k then ps else p :: dictDelete ps k

/-- Python truthiness of `a or b` on two optional strings (`None` and
`""` are falsy): used for `data.get("state") or data.get("status")`. -/
def pyOrOpt (a b : Option String) : Option String :=
  match a with
  | some s => if s = "" then b else some s
  | none => b

/-- Python truthiness of `a or dflt` where `dflt` is a plain string:
used for the errors-field fallback at line 131. -/
def pyOrStr (a : Option String) (dflt : String) : String :=
  match a with
  | some s => if s = "" then dflt else s
  | none => dflt

/-- The JSON body of one status fetch, restricted to the fields the
server reads: `state`, `status`, `errors`, `results`, `bot_name`.
Payload values the code never inspects are kept as opaque strings;
an absent `results` field is identified with the empty map, matching
`final_result.get("results", \x7b\x7d)`. -/
structure StatusData where
  state : Option String
  status : Option String
  errors : Option String
  results : List (String × String)
  bot_name : Option String
  deriving DecidableEq, Repr

/-- Result of one `client.get(status_url)` + `raise_for_status()` +
`.json()` round trip: either a decoded body, or an `httpx.HTTPError`
(network failure or non-2xx status). -/
inductive FetchResult where
  | ok (data : StatusData)
  | netError (msg : String)
  deriving DecidableEq, Repr

/-- How `wait_for_bot_completion` leaves the caller: the returned data
on terminal success, the `RuntimeError` message on remote `FAILED`, or
the `TimeoutError` message when the attempt budget runs out. -/
inductive PollOutcome where
  | succeeded (data : StatusData)
  | jobFailed (msg : String)
  | timedOut (msg : String)
  deriving DecidableEq, Repr

/-- The outcome of the poll loop, instrumented with how many status fetches
it issued and how many inter-attempt sleeps it performed. -/
structure PollTrace where
  outcome : PollOutcome
  fetches : Nat
  sleeps : Nat
  deriving DecidableEq, Repr

/-- `state = data.get("state") or data.get("status")` (line 122). -/
def effState (d : StatusData) : Option String :=
  pyOrOpt d.state d.status

/-- Message of the `RuntimeError` raised on a `FAILED` state
(lines 130-132). -/
def failMsg (d : StatusData) : String :=
  "Bot execution failed: " ++ pyOrStr d.errors "Unknown error"

/-- Message of the `TimeoutError` raised when the budget is exhausted
(lines 144-146). -/
def timeoutMsg (max_retries poll_interval : Nat) : String :=
  "Bot execution did not complete after "
    ++ toString (max_retries * poll_interval) ++ " seconds"

/-- Account for one fetch followed by one `asyncio.sleep(poll_interval)`
before the rest of the loop. -/
def stepAfterWait (t : PollTrace) : PollTrace :=
  ⟨t.outcome, t.fetches + 1, t.sleeps + 1⟩

/-- The body of the `for attempt in range(max_retries)` loop of
`wait_for_bot_completion` (lines 116-146). `attempt` is the absolute
attempt index feeding the status-fetch oracle, `remaining` the number
of loop iterations left. An `httpx.HTTPError` is caught, logged and
followed by a sleep; a decoded body branches on the effective state:
terminal success returns the data, `FAILED` raises `RuntimeError`
(not caught by the `except httpx.HTTPError` handler), and both the
`RUNNING`/`PENDING`/`QUEUED` branch and the unrecognized-state branch
sleep and continue. -/
def pollGo (fetch : Nat → FetchResult) (max_retries poll_interval : Nat) :
    Nat → Nat → PollTrace
  | _, 0 => ⟨.timedOut (timeoutMsg max_retries poll_interval), 0, 0⟩
  | attempt, remaining + 1 =>
    match fetch attempt with
    | .netError _ =>
      stepAfterWait (pollGo fetch max_retries poll_interval (attempt + 1) remaining)
    | .ok data =>
      if effState data = some "SUCCEEDED" ∨ effState data = some "COMPLETED" then
        ⟨.succeeded data, 1, 0⟩
      else if effState data = some "FAILED" then
        ⟨.jobFailed (failMsg data), 1, 0⟩
      else
        stepAfterWait (pollGo fetch max_retries poll_interval (attempt + 1) remaining)

/-- `wait_for_bot_completion(execution_id, token, max_retries,
poll_interval)` (lines 104-146), with the network abstracted into a
status-fetch oracle indexed by the attempt number. -/
def wait_for_bot_completion (fetch : Nat → FetchResult)
    (max_retries poll_interval : Nat) : PollTrace :=
  pollGo fetch max_retries poll_interval 0 max_retries

/-- A fetch result that makes the loop sleep and go on to the next
attempt: a network error, or a decoded body whose effective state is
neither terminal success nor `FAILED`. -/
def nonDecisive : FetchResult → Prop
  | .netError _ => True
  | .ok d =>
    effState d ≠ some "SUCCEEDED" ∧ effState d ≠ some "COMPLETED"
      ∧ effState d ≠ some "FAILED"

instance : DecidablePred nonDecisive := fun r =>
  match r with
  | .netError _ => isTrue trivial
  | .ok _ => inferInstanceAs (Decidable (_ ∧ _ ∧ _))

/-- One step result stored by `get_node_results`: the decoded payload
on success, or the inline `\x7b"error": str(e)\x7d` marker on
`httpx.HTTPError`. -/
inductive NodeResult where
  | payload (v : String)
  | errorMarker (msg : String)
  deriving DecidableEq, Repr

/-- The per-node try/except body of `get_node_results` (lines
154-164), with the network abstracted into a per-node oracle. -/
def fetchStepResult (fetchNode : String → Except String String)
    (node_name : String) : NodeResult :=
  match fetchNode node_name with
  | .ok v => .payload v
  | .error e => .errorMarker e

/-- `get_node_results(execution_id, token, node_names)` (lines
148-166): one dict assignment per requested node name, never
propagating a per-node failure. -/
def get_node_results (fetchNode : String → Except String String)
    (node_names : List String) : List (String × NodeResult) :=
  node_names.foldl
    (fun node_results n => dictInsert node_results n (fetchStepResult fetchNode n)) []

/-- `filter_intermediate_nodes(results)` (lines 168-176): the keys of
the result map except the sentinels `"start"` and `"end"`; the empty
list when the map is empty (an absent map reaches this function as the
`.get("results", \x7b\x7d)` default, i.e. as the empty map). -/
def filter_intermediate_nodes {α : Type} (results : List (String × α)) : List String :=
  if results.isEmpty then []
  else (results.map Prod.fst).filter (fun node_name => decide (node_name ∉ ["start", "end"]))

/-- Result of the launch POST (lines 200-204): either an
`httpx.HTTPError` from `raise_for_status`, or the decoded JSON body
restricted to its string fields. -/
inductive LaunchResp where
  | httpError (msg : String)
  | ok (body : List (String × String))
  deriving DecidableEq, Repr

/-- The launch stage of `run_bot` (lines 200-207): on a decoded body,
`execution["_id"]` either yields the identifier or raises a `KeyError`
naming the `_id` field — rendered here as the marker string
`KeyError: _id` — and any raised exception is what the handler of
`run_bot` later formats. -/
def launch (resp : LaunchResp) : Except String String :=
  match resp with
  | .httpError m => .error m
  | .ok body =>
    match dictGet body "_id" with
    | some v => .ok v
    | none => .error "KeyError: _id"

/-- The network environment one `run_bot` call runs against: the launch
response, the status-fetch oracle of the poller, and the per-node
result oracle. -/
structure Env where
  launchResp : LaunchResp
  fetchStatus : Nat → FetchResult
  fetchNode : String → Except String String

/-- Hardcoded job identifier (line 181). -/
def hardcoded_bot_id : String := "695b46b802274a22219c4609"

/-- Hardcoded launch endpoint (line 186). -/
def hardcoded_launch_url : String := "https://api-test.autobot.live/bot_executions"

/-- Hardcoded bearer token (line 187), abbreviated to its first
characters; only its independence from the arguments of the caller matters
to the claims. -/
def hardcoded_token : String := "eyJraWQiOiJuaFU2eWlkdGpleSthUjd3SURWRXcyeDNrclNibTYxUEV3K1RrZ056UkNZPSIsImFsZyI6IlJTMjU2In0"

/-- The outbound launch request `run_bot` builds: target URL, job
identifier, the `test_events.start` list, and the bearer token. -/
structure OutboundLaunch where
  url : String
  bot_id : String
  test_events_start : List String
  bearer_token : String
  deriving DecidableEq, Repr

/-- Lines 180-190 of `run_bot`: both caller-supplied arguments are
overwritten with literal constants before any use, so the outbound
request is a constant function of them. -/
def run_bot_outbound (url : String) (payload : Option (List (String × String))) :
    OutboundLaunch :=
  { url := hardcoded_launch_url
    bot_id := hardcoded_bot_id
    test_events_start := []
    bearer_token := hardcoded_token }

/-- The JSON object `run_bot` serializes on success (lines 227-235). -/
structure ConsolidatedReport where
  success : Bool
  execution_id : String
  state : Option String
  bot_name : Option String
  total_intermediate_nodes : Nat
  node_results : List (String × NodeResult)
  full_execution_data : StatusData
  deriving DecidableEq, Repr

/-- What one `run_bot` call hands back to its caller: the serialized
report, the `"Error triggering bot: ..."` string from the
`except Exception` handler, or the implicit Python `None` when control
falls off the end of the function body. -/
inductive RunBotResult where
  | report (r : ConsolidatedReport)
  | errorValue (msg : String)
  | implicitNone
  deriving DecidableEq, Repr

/-- `run_bot(url, payload)` (lines 178-238). The caller-supplied
`url` and `payload` are overwritten before use (lines 180-186); the
poller runs with its default budget of 60 attempts at 5 seconds; the
success check at line 226 re-reads only the raw `state` field of the
final snapshot (not the `state or status` fallback the poller used),
and when it is not satisfied the function body ends without a
`return`, i.e. evaluates to `None`. -/
def run_bot (url : String) (payload : Option (List (String × String)))
    (env : Env) : RunBotResult :=
  match launch env.launchResp with
  | .error e => .errorValue ("Error triggering bot: " ++ e)
  | .ok execution_id =>
    match (wait_for_bot_completion env.fetchStatus 60 5).outcome with
    | .jobFailed m => .errorValue ("Error triggering bot: " ++ m)
    | .timedOut m => .errorValue ("Error triggering bot: " ++ m)
    | .succeeded final_result =>
      let state := final_result.state
      let all_results := final_result.results
      let intermediate_nodes := filter_intermediate_nodes all_results
      let node_results := get_node_results env.fetchNode intermediate_nodes
      if state = some "COMPLETED" ∨ state = some "SUCCEEDED" then
        .report
          { success := true
            execution_id := execution_id
            state := state
            bot_name := final_result.bot_name
            total_intermediate_nodes := intermediate_nodes.length
            node_results := node_results
            full_execution_data := final_result }
      else
        .implicitNone

/-- One record of the in-memory `users_db` registry. -/
structure UserRec where
  id : String
  name : String
  email : String
  role : String
  deriving DecidableEq, Repr

/-- `create_user(name, email, role)` (lines 13-24); the freshly
generated `uuid4` is passed in as the `user_id` oracle. Returns the
record and the updated registry. -/
def create_user (db : List (String × UserRec)) (user_id name email role : String) :
    UserRec × List (String × UserRec) :=
  let user : UserRec := { id := user_id, name := name, email := email, role := role }
  (user, dictInsert db user_id user)

/-- `update_user(user_id, name, email, role)` (lines 58-73): `ValueError`
when the id is unknown, otherwise the three optional fields overwrite
the stored record and the record is stored back under the same key. -/
def update_user (db : List (String × UserRec)) (user_id : String)
    (name email role : Option String) :
    Except String (UserRec × List (String × UserRec)) :=
  match dictGet db user_id with
  | none => .error ("User with ID " ++ user_id ++ " not found")
  | some user =>
    let user := match name with
      | some n => { user with name := n }
      | none => user
    let user := match email with
      | some e => { user with email := e }
      | none => user
    let user := match role with
      | some r => { user with role := r }
      | none => user
    .ok (user, dictInsert db user_id user)

/-- `delete_user(user_id)` (lines 75-82): `ValueError` when the id is
unknown, otherwise the entry is removed and a confirmation string
returned. -/
def delete_user (db : List (String × UserRec)) (user_id : String) :
    Except String (String × List (String × UserRec)) :=
  if hasKey db user_id then
    .ok ("User " ++ user_id ++ " deleted successfully", dictDelete db user_id)
  else
    .error ("User with ID " ++ user_id ++ " not found")

/-- Every stored record carries the key it is stored under as its
`id` field. -/
def dbInvariant (db : List (String × UserRec)) : Prop :=
  ∀ p ∈ db, p.2.id = p.1

theorem dictGet_dictInsert {α : Type} (db : List (String × α)) (k k' : String) (v : α) :
    dictGet (dictInsert db k v) k' = if k' = k then some v else dictGet db k' := by
  induction db with
  | nil =>
    by_cases h : k' = k
    · subst h; simp [dictInsert, dictGet]
    · simp [dictInsert, dictGet, h, Ne.symm h]
  | cons p ps ih =>
    by_cases hp : p.1 = k
    · by_cases hk : k' = k
      · subst hk; simp [dictInsert, dictGet, hp]
      · simp [dictInsert, dictGet, hp, hk, Ne.symm hk]
    · by_cases hk : p.1 = k'
      · have hk'k : ¬k' = k := fun h => hp (hk.trans h)
        simp [dictInsert, dictGet, hp, hk, hk'k]
      · simp [dictInsert, dictGet, hp, hk, ih]

theorem dictGet_mem {α : Type} (db : List (String × α)) (k : String) (v : α)
    (h : dictGet db k = some v) : (k, v) ∈ db := by
  induction db with
  | nil => simp [dictGet] at h
  | cons p ps ih =>
    by_cases hp : p.1 = k
    · rw [dictGet, if_pos hp] at h
      obtain ⟨a, b⟩ := p
      obtain rfl : a = k := hp
      obtain rfl : b = v := Option.some.inj h
      exact List.mem_cons_self _ _
    · rw [dictGet, if_neg hp] at h
      exact List.mem_cons_of_mem _ (ih h)

theorem dictInsert_pres {α : Type} (P : String × α → Prop) (db : List (String × α))
    (k : String) (v : α) (hkv : P (k, v)) :
    (∀ p ∈ db, P p) → ∀ p ∈ dictInsert db k v, P p := by
  induction db with
  | nil =>
    intro _ p hp
    simp [dictInsert] at hp
    subst hp; exact hkv
  | cons q qs ih =>
    intro hdb p hdi
    by_cases hq : q.1 = k
    · rw [dictInsert, if_pos hq] at hdi
      rcases List.mem_cons.mp hdi with h | h
      · subst h; exact hkv
      · exact hdb p (List.mem_cons_of_mem _ h)
    · rw [dictInsert, if_neg hq] at hdi
      rcases List.mem_cons.mp hdi with h | h
      · subst h; exact hdb _ (List.mem_cons_self _ _)
      · exact ih (fun r hr => hdb r (List.mem_cons_of_mem _ hr)) p h

theorem dictInsert_id_invariant (db : List (String × UserRec)) (k : String)
    (v : UserRec) (hv : v.id = k) (hdb : dbInvariant db) :
    dbInvariant (dictInsert db k v) :=
  fun p hp =>
    dictInsert_pres (fun q : String × UserRec => q.2.id = q.1) db k v hv hdb p hp

theorem dictDelete_subset {α : Type} (db : List (String × α)) (k : String) :
    ∀ p ∈ dictDelete db k, p ∈ db := by
  induction db with
  | nil => simp [dictDelete]
  | cons q qs ih =>
    intro p hp
    by_cases hq : q.1 = k
    · simp [dictDelete, hq] at hp
      exact List.mem_cons_of_mem _ hp
    · simp [dictDelete, hq] at hp
      rcases hp with h | h
      · simp [h]
      · exact List.mem_cons_of_mem _ (ih p h)

theorem keys_dictInsert {α : Type} (db : List (String × α)) (k : String) (v : α) :
    (dictInsert db k v).map Prod.fst
      = if hasKey db k then db.map Prod.fst else db.map Prod.fst ++ [k] := by
  induction db with
  | nil => simp [dictInsert, hasKey]
  | cons p ps ih =>
    by_cases hp : p.1 = k
    · rw [dictInsert, if_pos hp, hasKey]
      simp [hp]
    · rw [dictInsert, if_neg hp, hasKey, List.map_cons, ih]
      by_cases hk : hasKey ps k = true
      · rw [hk]
        simp
      · simp only [Bool.not_eq_true] at hk
        rw [hk]
        simp [hp]

theorem length_dictInsert {α : Type} (db : List (String × α)) (k : String) (v : α) :
    (dictInsert db k v).length
      = if hasKey db k then db.length else db.length + 1 := by
  have h := congrArg List.length (keys_dictInsert db k v)
  by_cases hk : hasKey db k <;> simpa [hk] using h

theorem hasKey_eq_mem_keys {α : Type} (db : List (String × α)) (k : String) :
    hasKey db k = true ↔ k ∈ db.map Prod.fst := by
  induction db with
  | nil => simp [hasKey]
  | cons p ps ih =>
    rw [hasKey]
    simp only [Bool.or_eq_true, decide_eq_true_eq, ih, List.map_cons, List.mem_cons]
    constructor
    · rintro (h | h)
      · exact Or.inl h.symm
      · exact Or.inr h
    · rintro (h | h)
      · exact Or.inl h.symm
      · exact Or.inr h

theorem pollGo_skip (fetch : Nat → FetchResult) (N I : Nat) :
    ∀ (k a r : Nat), (∀ j < k, nonDecisive (fetch (a + j))) →
      pollGo fetch N I a (r + k)
        = ⟨(pollGo fetch N I (a + k) r).outcome,
           (pollGo fetch N I (a + k) r).fetches + k,
           (pollGo fetch N I (a + k) r).sleeps + k⟩ := by
  intro k
  induction k with
  | zero => intro a r _; rfl
  | succ k ih =>
    intro a r h
    have h0 : nonDecisive (fetch a) := by
      simpa using h 0 (Nat.succ_pos k)
    have hsh : ∀ j < k, nonDecisive (fetch (a + 1 + j)) := by
      intro j hj
      have := h (j + 1) (by omega)
      simpa [Nat.add_assoc, Nat.add_comm 1 j] using this
    have hidx : a + 1 + k = a + (k + 1) := by omega
    have ih' := ih (a + 1) r hsh
    rw [hidx] at ih'
    show pollGo fetch N I a ((r + k) + 1) = _
    cases hfa : fetch a with
    | netError m =>
      rw [pollGo]
      simp only [hfa, ih', stepAfterWait, PollTrace.mk.injEq]
      exact ⟨by simp, by omega, by omega⟩
    | ok d =>
      rw [hfa] at h0
      simp only [nonDecisive] at h0
      rw [pollGo]
      simp only [hfa]
      rw [if_neg (by exact fun hor => hor.elim h0.1 h0.2.1), if_neg h0.2.2]
      simp only [ih', stepAfterWait, PollTrace.mk.injEq]
      exact ⟨by simp, by omega, by omega⟩

theorem poll_exhausted (fetch : Nat → FetchResult) (N I : Nat)
    (h : ∀ j < N, nonDecisive (fetch j)) :
    wait_for_bot_completion fetch N I = ⟨.timedOut (timeoutMsg N I), N, N⟩ := by
  have hz : (0 : Nat) + N = N := Nat.zero_add N
  have := pollGo_skip fetch N I N 0 0 (by simpa using h)
  rw [hz] at this
  unfold wait_for_bot_completion
  rw [show N = 0 + N from (Nat.zero_add N).symm] at this ⊢
  rw [this]
  simp [pollGo]

theorem poll_first_decisive (fetch : Nat → FetchResult) (I k r : Nat)
    (h : ∀ j < k, nonDecisive (fetch j)) (d : StatusData)
    (hk : fetch k = .ok d) :
    (effState d = some "SUCCEEDED" ∨ effState d = some "COMPLETED" →
      wait_for_bot_completion fetch (k + (r + 1)) I = ⟨.succeeded d, k + 1, k⟩)
    ∧ (effState d = some "FAILED" →
      wait_for_bot_completion fetch (k + (r + 1)) I
        = ⟨.jobFailed (failMsg d), k + 1, k⟩) := by
  have hz : (0 : Nat) + k = k := Nat.zero_add k
  have hskip := pollGo_skip fetch (k + (r + 1)) I k 0 (r + 1) (by simpa using h)
  rw [hz] at hskip
  have hone : pollGo fetch (k + (r + 1)) I k (r + 1)
      = match fetch k with
        | .netError _ =>
          stepAfterWait (pollGo fetch (k + (r + 1)) I (k + 1) r)
        | .ok data =>
          if effState data = some "SUCCEEDED" ∨ effState data = some "COMPLETED" then
            ⟨.succeeded data, 1, 0⟩
          else if effState data = some "FAILED" then
            ⟨.jobFailed (failMsg data), 1, 0⟩
          else
            stepAfterWait (pollGo fetch (k + (r + 1)) I (k + 1) r) := by
    rw [pollGo]
  rw [show k + (r + 1) = (r + 1) + k from by omega] at hskip hone
  constructor
  · intro hsucc
    unfold wait_for_bot_completion
    rw [show k + (r + 1) = (r + 1) + k from by omega]
    rw [hskip, hone]
    simp only [hk, if_pos hsucc, PollTrace.mk.injEq]
    exact ⟨by simp, by omega, by omega⟩
  · intro hfail
    unfold wait_for_bot_completion
    rw [show k + (r + 1) = (r + 1) + k from by omega]
    rw [hskip, hone]
    have hnot : ¬(effState d = some "SUCCEEDED" ∨ effState d = some "COMPLETED") := by
      rw [hfail]
      decide
    simp only [hk, if_neg hnot, if_pos hfail, PollTrace.mk.injEq]
    exact ⟨by simp, by omega, by omega⟩

theorem get_node_results_go_lookup (f : String → Except String String) :
    ∀ (names : List String) (acc : List (String × NodeResult)) (n : String),
      dictGet (names.foldl (fun a m => dictInsert a m (fetchStepResult f m)) acc) n
        = if n ∈ names then some (fetchStepResult f n) else dictGet acc n := by
  intro names
  induction names with
  | nil => intro acc n; simp
  | cons m ms ih =>
    intro acc n
    rw [List.foldl_cons, ih]
    by_cases hms : n ∈ ms
    · simp [hms]
    · rw [if_neg hms, dictGet_dictInsert]
      by_cases hm : n = m
      · subst hm
        simp
      · simp [hm, hms]

theorem get_node_results_go_length (f : String → Except String String) :
    ∀ (names : List String) (acc : List (String × NodeResult)),
      names.Nodup → (∀ n ∈ names, hasKey acc n = false) →
      (names.foldl (fun a m => dictInsert a m (fetchStepResult f m)) acc).length
        = acc.length + names.length := by
  intro names
  induction names with
  | nil => intro acc _ _; simp
  | cons m ms ih =>
    intro acc hnd hfresh
    have hm : hasKey acc m = false := hfresh m (List.mem_cons_self _ _)
    have hkeys := keys_dictInsert acc m (fetchStepResult f m)
    rw [hm] at hkeys
    simp only [Bool.false_eq_true, if_false] at hkeys
    have hlen := length_dictInsert acc m (fetchStepResult f m)
    rw [hm] at hlen
    simp only [Bool.false_eq_true, if_false] at hlen
    rw [List.foldl_cons,
      ih (dictInsert acc m (fetchStepResult f m)) (List.Nodup.of_cons hnd) ?_, hlen]
    · simp [List.length_cons]
      omega
    · intro n hn
      have hne : n ≠ m := by
        rintro rfl
        exact (List.nodup_cons.mp hnd).1 hn
      have hacc : hasKey acc n = false := hfresh n (List.mem_cons_of_mem _ hn)
      rw [← Bool.not_eq_true, hasKey_eq_mem_keys, hkeys]
      simp only [List.mem_append, List.mem_singleton]
      rintro (hk | hk)
      · rw [← hasKey_eq_mem_keys] at hk
        rw [hacc] at hk
        exact Bool.false_ne_true hk
      · exact hne hk

/-- C3: if every status fetch within the budget of `N` attempts yields a
non-terminal state (`PENDING`, `QUEUED`, `RUNNING`, or an unrecognized
state), polling fails with the timeout error after exactly `N` attempts
(and `N` sleeps), and the error message carries the elapsed wall-clock
bound `N * I` seconds; unrecognized states are retried, never fatal. -/
theorem C3_timeout_after_exact_budget (fetch : Nat → FetchResult) (N I : Nat)
    (h : ∀ j < N, ∃ d, fetch j = FetchResult.ok d
        ∧ effState d ≠ some "SUCCEEDED" ∧ effState d ≠ some "COMPLETED"
        ∧ effState d ≠ some "FAILED") :
    wait_for_bot_completion fetch N I = ⟨.timedOut (timeoutMsg N I), N, N⟩
    ∧ timeoutMsg N I
      = "Bot execution did not complete after " ++ toString (N * I) ++ " seconds" := by
  refine ⟨poll_exhausted fetch N I ?_, rfl⟩
  intro j hj
  obtain ⟨d, hfd, h1, h2, h3⟩ := h j hj
  rw [hfd]
  exact ⟨h1, h2, h3⟩

/-- Witness for C3: the instance given by the spec — a budget of 2 attempts
with a fetch that always reports `RUNNING` times out after exactly 2
attempts. -/
theorem C3_timeout_after_exact_budget_witness :
    wait_for_bot_completion
        (fun _ => FetchResult.ok ⟨some "RUNNING", none, none, [], none⟩) 2 5
      = ⟨.timedOut (timeoutMsg 2 5), 2, 2⟩
    ∧ timeoutMsg 2 5
      = "Bot execution did not complete after " ++ toString (2 * 5) ++ " seconds" :=
  C3_timeout_after_exact_budget
    (fun _ => FetchResult.ok ⟨some "RUNNING", none, none, [], none⟩) 2 5
    (fun _ _ => ⟨⟨some "RUNNING", none, none, [], none⟩, rfl, by decide, by decide, by decide⟩)

/-- C4: a transient network error during a status fetch does not abort
the poll loop: it consumes exactly one attempt of the budget and is
followed by exactly one interval wait, after which the loop continues
from the next attempt; in particular a transient failure on attempt 1
followed by `SUCCEEDED` on attempt 2 with a budget of at least 2 ends
in success. -/
theorem C4_transient_error_swallowed (fetch : Nat → FetchResult) (N I : Nat)
    (e : String) (h0 : fetch 0 = FetchResult.netError e) :
    (∀ r, N = r + 1 →
      wait_for_bot_completion fetch N I = stepAfterWait (pollGo fetch N I 1 r))
    ∧ (∀ d, 2 ≤ N → fetch 1 = FetchResult.ok d →
        effState d = some "SUCCEEDED" →
        wait_for_bot_completion fetch N I = ⟨.succeeded d, 2, 1⟩) := by
  constructor
  · rintro r rfl
    unfold wait_for_bot_completion
    rw [pollGo]
    simp only [h0]
  · intro d h2 h1 hs
    obtain ⟨r, rfl⟩ : ∃ r, N = 1 + (r + 1) := ⟨N - 2, by omega⟩
    have hc : ∀ j < 1, nonDecisive (fetch j) := by
      intro j hj
      obtain rfl : j = 0 := by omega
      rw [h0]
      trivial
    exact (poll_first_decisive fetch I 1 r hc d h1).1 (Or.inl hs)

/-- Witness for C4: the instance given by the spec — network error on attempt 1,
`SUCCEEDED` on attempt 2, budget 2: the poll returns the succeeded
status after 2 fetches and 1 interval wait. -/
theorem C4_transient_error_swallowed_witness :
    wait_for_bot_completion
        (fun k => if k = 0 then FetchResult.netError "boom"
          else FetchResult.ok ⟨some "SUCCEEDED", none, none, [], none⟩) 2 5
      = ⟨.succeeded ⟨some "SUCCEEDED", none, none, [], none⟩, 2, 1⟩ :=
  (C4_transient_error_swallowed
      (fun k => if k = 0 then FetchResult.netError "boom"
        else FetchResult.ok ⟨some "SUCCEEDED", none, none, [], none⟩) 2 5
      "boom" rfl).2
    ⟨some "SUCCEEDED", none, none, [], none⟩ (by omega) rfl (by decide)

/-- C6: the poller returns the full fetched status at the first attempt
whose state is terminal success (`SUCCEEDED` or `COMPLETED`) — after
`k` non-decisive attempts and a decisive attempt `k`, the trace shows
exactly `k + 1` fetches, so no further status fetch is issued. -/
theorem C6_stop_at_first_terminal_success (fetch : Nat → FetchResult)
    (I k r : Nat) (d : StatusData)
    (hc : ∀ j < k, nonDecisive (fetch j)) (hk : fetch k = FetchResult.ok d)
    (hs : effState d = some "SUCCEEDED" ∨ effState d = some "COMPLETED") :
    wait_for_bot_completion fetch (k + (r + 1)) I = ⟨.succeeded d, k + 1, k⟩ :=
  (poll_first_decisive fetch I k r hc d hk).1 hs

/-- Witness for C6: the instance given by the spec — 3 max attempts, interval 0,
`RUNNING` on attempts 1-2 and `SUCCEEDED` on attempt 3: success on the
third attempt, no timeout. -/
theorem C6_stop_at_first_terminal_success_witness :
    wait_for_bot_completion
        (fun k => if k < 2 then FetchResult.ok ⟨some "RUNNING", none, none, [], none⟩
          else FetchResult.ok ⟨some "SUCCEEDED", none, none, [], none⟩) 3 0
      = ⟨.succeeded ⟨some "SUCCEEDED", none, none, [], none⟩, 3, 2⟩ :=
  C6_stop_at_first_terminal_success
    (fun k => if k < 2 then FetchResult.ok ⟨some "RUNNING", none, none, [], none⟩
      else FetchResult.ok ⟨some "SUCCEEDED", none, none, [], none⟩)
    0 2 0 ⟨some "SUCCEEDED", none, none, [], none⟩
    (by decide) rfl (by decide)

/-- C5: a `FAILED` state ends the poll immediately with the job-failure
error carrying the remote error payload (or the `Unknown error` marker
when it is absent) — the trace shows exactly `k + 1` fetches, so no
further attempt is made — and through `run_bot` this surfaces as a
formatted error value containing the remote error detail, never a
success report. -/
theorem C5_failed_state_is_fatal (fetch : Nat → FetchResult) (k r : Nat)
    (d : StatusData) (hc : ∀ j < k, nonDecisive (fetch j))
    (hk : fetch k = FetchResult.ok d) (hf : effState d = some "FAILED") :
    (∀ I, wait_for_bot_completion fetch (k + (r + 1)) I
        = ⟨.jobFailed (failMsg d), k + 1, k⟩)
    ∧ (∀ env url payload, env.fetchStatus = fetch → k < 60 →
        (∃ ex, launch env.launchResp = Except.ok ex) →
        run_bot url payload env
          = .errorValue ("Error triggering bot: " ++ failMsg d)) := by
  constructor
  · intro I
    exact (poll_first_decisive fetch I k r hc d hk).2 hf
  · rintro env url payload hfs hk60 ⟨ex, hex⟩
    obtain ⟨r60, h60⟩ : ∃ r60, (60 : Nat) = k + (r60 + 1) := ⟨59 - k, by omega⟩
    have hpoll : wait_for_bot_completion env.fetchStatus 60 5
        = ⟨.jobFailed (failMsg d), k + 1, k⟩ := by
      rw [hfs, h60]
      exact (poll_first_decisive fetch 5 k r60 hc d hk).2 hf
    rw [run_bot, hex, hpoll]

/-- Witness for C5: a first fetch reporting `FAILED` with a remote
error payload makes `run_bot` return the formatted error containing
that payload. -/
theorem C5_failed_state_is_fatal_witness :
    run_bot "caller-url" Option.none
        { launchResp := LaunchResp.ok [("_id", "exec-1")]
          fetchStatus := fun _ =>
            FetchResult.ok ⟨some "FAILED", none, some "remote exploded", [], none⟩
          fetchNode := fun _ => Except.error "unused" }
      = .errorValue ("Error triggering bot: "
          ++ failMsg ⟨some "FAILED", none, some "remote exploded", [], none⟩) :=
  (C5_failed_state_is_fatal
      (fun _ => FetchResult.ok ⟨some "FAILED", none, some "remote exploded", [], none⟩)
      0 0 ⟨some "FAILED", none, some "remote exploded", [], none⟩
      (fun j hj => absurd hj (Nat.not_lt_zero j)) rfl (by decide)).2
    { launchResp := LaunchResp.ok [("_id", "exec-1")]
      fetchStatus := fun _ =>
        FetchResult.ok ⟨some "FAILED", none, some "remote exploded", [], none⟩
      fetchNode := fun _ => Except.error "unused" }
    "caller-url" Option.none rfl (by omega) ⟨"exec-1", rfl⟩

/-- C7: `filter_intermediate_nodes` returns exactly the keys of the
result map other than the sentinels `"start"` and `"end"`; it returns
the empty sequence on the empty (or absent, which arrives as empty)
map, and on a map with keys `start`, `end`, `step1`, `step2` it
returns exactly `step1` and `step2`. -/
theorem C7_filter_intermediate_nodes_keys :
    (∀ (α : Type) (results : List (String × α)) (n : String),
      n ∈ filter_intermediate_nodes results
        ↔ n ∈ results.map Prod.fst ∧ n ≠ "start" ∧ n ≠ "end")
    ∧ filter_intermediate_nodes ([] : List (String × Nat)) = []
    ∧ filter_intermediate_nodes [("start", 1), ("end", 2), ("step1", 3), ("step2", 4)]
      = ["step1", "step2"] := by
  refine ⟨?_, rfl, by decide⟩
  intro α results n
  rw [filter_intermediate_nodes]
  by_cases he : results.isEmpty
  · rw [if_pos he]
    rw [List.isEmpty_iff] at he
    subst he
    simp
  · rw [if_neg he]
    simp only [List.mem_filter, decide_eq_true_eq, List.mem_cons,
      List.not_mem_nil, or_false, not_or]

/-- C8: `get_node_results` returns a map with an entry for every
requested step name — a failing per-step fetch becomes an error-marker
entry instead of aborting the batch — and with pairwise-distinct names
the result has exactly as many entries as names; in particular 3 names
with 1 failing fetch yield exactly 3 entries. -/
theorem C8_gather_never_shrinks :
    (∀ (f : String → Except String String) (names : List String) (n : String),
      n ∈ names →
      dictGet (get_node_results f names) n = some (fetchStepResult f n))
    ∧ (∀ (f : String → Except String String) (names : List String),
      names.Nodup → (get_node_results f names).length = names.length)
    ∧ get_node_results
        (fun n => if n = "b" then Except.error "net down"
          else Except.ok ("payload-" ++ n)) ["a", "b", "c"]
      = [("a", .payload "payload-a"), ("b", .errorMarker "net down"),
         ("c", .payload "payload-c")] := by
  refine ⟨?_, ?_, by decide⟩
  · intro f names n hn
    rw [get_node_results, get_node_results_go_lookup, if_pos hn]
  · intro f names hnd
    rw [get_node_results, get_node_results_go_length f names [] hnd (fun _ _ => rfl)]
    simp

/-- Witness for C8: instantiates the batch lemmas on the 3-name batch
with one failing fetch. -/
theorem C8_gather_never_shrinks_witness :
    dictGet
        (get_node_results
          (fun n => if n = "b" then Except.error "net down"
            else Except.ok ("payload-" ++ n)) ["a", "b", "c"]) "b"
      = some (fetchStepResult
          (fun n => if n = "b" then Except.error "net down"
            else Except.ok ("payload-" ++ n)) "b")
    ∧ (get_node_results
        (fun n => if n = "b" then Except.error "net down"
          else Except.ok ("payload-" ++ n)) ["a", "b", "c"]).length = 3 :=
  ⟨C8_gather_never_shrinks.1
      (fun n => if n = "b" then Except.error "net down"
        else Except.ok ("payload-" ++ n)) ["a", "b", "c"] "b" (by decide),
    C8_gather_never_shrinks.2.1
      (fun n => if n = "b" then Except.error "net down"
        else Except.ok ("payload-" ++ n)) ["a", "b", "c"] (by decide)⟩

/-- Witness for C7: on the four-key map, `step1` is classified as
intermediate and the sentinel `start` is not. -/
theorem C7_filter_intermediate_nodes_keys_witness :
    "step1" ∈ filter_intermediate_nodes
        [("start", 1), ("end", 2), ("step1", 3), ("step2", 4)]
    ∧ "start" ∉ filter_intermediate_nodes
        [("start", 1), ("end", 2), ("step1", 3), ("step2", 4)] :=
  ⟨(C7_filter_intermediate_nodes_keys.1 Nat
      [("start", 1), ("end", 2), ("step1", 3), ("step2", 4)] "step1").mpr
      ⟨by decide, by decide, by decide⟩,
    fun h =>
      ((C7_filter_intermediate_nodes_keys.1 Nat
          [("start", 1), ("end", 2), ("step1", 3), ("step2", 4)] "start").mp h).2.1 rfl⟩

/-- C1 (evaluation at the failing input): when the final snapshot
signals success only through its `status` field (`state` absent), the
poller returns it as a success, but `run_bot` re-reads only the raw
`state` field at line 226, falls through the success check, and hands
back the implicit `None` — neither a ConsolidatedReport nor a
formatted error value, violating the claim that it always returns
exactly one of those two. -/
theorem C1_run_bot_returns_none_on_status_only_success :
    run_bot "https://caller-url" Option.none
        { launchResp := LaunchResp.ok [("_id", "exec-1")]
          fetchStatus := fun _ =>
            FetchResult.ok ⟨none, some "SUCCEEDED", none, [], none⟩
          fetchNode := fun _ => Except.error "unused" }
      = .implicitNone := by
  decide

/-- C2 (counterexample): an HTTP-success launch response whose
identifier field is present but empty makes the launch stage return a
handle with an empty execution identifier instead of failing, refuting
the claim that a handle with an empty identifier is never produced. -/
theorem C2_counterexample_empty_identifier :
    launch (LaunchResp.ok [("_id", "")]) = Except.ok "" := by
  rfl

/-- C2 (amended): `launch` returns a handle exactly when the HTTP
request succeeded and the response carries the identifier field, and
the identifier returned is exactly the field value — possibly the
empty string; on non-success HTTP status it fails with the transport
error, and on a success response missing the identifier field it fails
with the missing-key error. -/
theorem C2_launch_amended :
    (∀ (resp : LaunchResp) (id : String),
      launch resp = Except.ok id
        ↔ ∃ body, resp = LaunchResp.ok body ∧ dictGet body "_id" = some id)
    ∧ (∀ body, dictGet body "_id" = none →
        launch (LaunchResp.ok body) = Except.error "KeyError: _id")
    ∧ (∀ m, launch (LaunchResp.httpError m) = Except.error m) := by
  refine ⟨?_, ?_, fun m => rfl⟩
  · intro resp id
    cases resp with
    | httpError m => simp [launch]
    | ok body =>
      cases hg : dictGet body "_id" with
      | none => simp [launch, hg]
      | some v => simp [launch, hg]
  · intro body hg
    simp [launch, hg]

/-- Witness for C2: a launch response missing the identifier field
fails with the missing-key error. -/
theorem C2_launch_amended_witness :
    launch (LaunchResp.ok [("bot", "b1")]) = Except.error "KeyError: _id" :=
  C2_launch_amended.2.1 [("bot", "b1")] rfl

/-- C9: the behaviour of `run_bot` is independent of its
caller-supplied `url` and `payload` arguments: any two invocations
that differ only in those arguments build the identical outbound
launch request (URL, job identifier, payload, bearer token) and return
the identical value, because the function overwrites both arguments
with literal constants. -/
theorem C9_run_bot_ignores_caller_arguments
    (u1 u2 : String) (p1 p2 : Option (List (String × String))) (env : Env) :
    run_bot_outbound u1 p1 = run_bot_outbound u2 p2
    ∧ run_bot u1 p1 env = run_bot u2 p2 env :=
  ⟨rfl, rfl⟩

/-- C10: the registry invariant — every stored record carries the key
it is stored under as its `id` — is preserved by every registry
operation: `create_user` stores the new record under the freshly
generated id embedded in it, `update_user` never changes the `id`
field, and `delete_user` only removes entries. -/
theorem C10_registry_id_invariant (db : List (String × UserRec))
    (hdb : dbInvariant db) :
    (∀ user_id name email role,
      (create_user db user_id name email role).1.id = user_id
      ∧ dbInvariant (create_user db user_id name email role).2)
    ∧ (∀ user_id name email role u db2,
        update_user db user_id name email role = Except.ok (u, db2) →
        u.id = user_id ∧ dbInvariant db2)
    ∧ (∀ user_id m db2,
        delete_user db user_id = Except.ok (m, db2) → dbInvariant db2) := by
  refine ⟨?_, ?_, ?_⟩
  · intro user_id name email role
    refine ⟨rfl, dictInsert_id_invariant db user_id _ ?_ hdb⟩
    rfl
  · intro user_id name email role u db2 hu
    cases hg : dictGet db user_id with
    | none =>
      rw [update_user, hg] at hu
      exact absurd hu (by simp)
    | some u0 =>
      have h0 : u0.id = user_id := hdb _ (dictGet_mem db user_id u0 hg)
      rw [update_user, hg] at hu
      cases name <;> cases email <;> cases role <;>
        (simp only [Except.ok.injEq, Prod.mk.injEq] at hu
         obtain ⟨rfl, rfl⟩ := hu
         refine ⟨h0, dictInsert_id_invariant db user_id _ ?_ hdb⟩
         exact h0)
  · intro user_id m db2 hd
    rw [delete_user] at hd
    by_cases hk : hasKey db user_id = true
    · rw [if_pos hk] at hd
      simp only [Except.ok.injEq, Prod.mk.injEq] at hd
      obtain ⟨-, rfl⟩ := hd
      intro p hp
      exact hdb p (dictDelete_subset db user_id p hp)
    · rw [if_neg hk] at hd
      exact absurd hd (by simp)

/-- Witness for C10: creating a second user under a fresh id in a
one-entry registry keeps the invariant, and the returned record
carries the fresh id. -/
theorem C10_registry_id_invariant_witness :
    (create_user [("u1", ⟨"u1", "Ann", "ann@example.com", "user"⟩)]
        "u2" "Bob" "bob@example.com" "admin").1.id = "u2"
    ∧ dbInvariant (create_user [("u1", ⟨"u1", "Ann", "ann@example.com", "user"⟩)]
        "u2" "Bob" "bob@example.com" "admin").2 :=
  (C10_registry_id_invariant [("u1", ⟨"u1", "Ann", "ann@example.com", "user"⟩)]
      (by
        intro p hp
        rw [List.mem_singleton] at hp
        subst hp
        rfl)).1
    "u2" "Bob" "bob@example.com" "admin"

end UserCrud
